import Mathlib

/-!
Shallow embedding of `src/main.py` (Heroic → Lutris game importer).

Strings are modelled as `List Char`; Python `str.replace` with a
one-character pattern is a character-wise bind; `str.lower` is a
character-wise `Char.toLower`.  The per-game loop of
`add_heroic_games_to_lutris` is a fold over the manifest entries with an
explicit state (YAML files written, rows pending in the transaction,
added/skipped counters) and an environment supplying the outcomes of the
external effects (per-game option files, YAML write, database insert).
-/

/-- The apostrophe character (code point 39), written by code to avoid
quoting issues in literals. -/
def apos : Char := Char.ofNat 39

/-- Python `s.replace(old, new)` for a one-character `old`: each
occurrence of `old` is replaced by the string `new`. -/
def replaceChar (old : Char) (new : List Char) (s : List Char) : List Char :=
  s.flatMap fun c => if c = old then new else [c]

/-- `create_slug` from `src/main.py` lines 23-26: lowercase, spaces to
hyphens, strip `:`, the apostrophe, `®`, `™`, `.`, and replace `&` with
`and`, applied in that order. -/
def create_slug (title : List Char) : List Char :=
  replaceChar '&' ("and".data)
    (replaceChar '.' []
      (replaceChar '™' []
        (replaceChar '®' []
          (replaceChar apos []
            (replaceChar ':' []
              (replaceChar ' ' ['-']
                (title.map Char.toLower)))))))

/-- Character-wise description of the slug algorithm: after lowercasing,
a space becomes a hyphen, each of `:`, the apostrophe, `®`, `™`, `.` is
dropped, `&` becomes `and`, and every other character is kept. -/
def slugCharMap (c : Char) : List Char :=
  if c = ' ' then ['-']
  else if c = ':' then []
  else if c = apos then []
  else if c = '®' then []
  else if c = '™' then []
  else if c = '.' then []
  else if c = '&' then "and".data
  else [c]

/-- The slug algorithm as a single character-wise pass. -/
def slugSpec (title : List Char) : List Char :=
  (title.map Char.toLower).flatMap slugCharMap

/-- The replace chain of `create_slug`, without the lowercasing step. -/
def slugChain (s : List Char) : List Char :=
  replaceChar '&' ("and".data)
    (replaceChar '.' []
      (replaceChar '™' []
        (replaceChar '®' []
          (replaceChar apos []
            (replaceChar ':' []
              (replaceChar ' ' ['-'] s))))))

theorem create_slug_eq_chain (t : List Char) :
    create_slug t = slugChain (t.map Char.toLower) := rfl

theorem replaceChar_append (old : Char) (new : List Char) (a b : List Char) :
    replaceChar old new (a ++ b) = replaceChar old new a ++ replaceChar old new b := by
  simp [replaceChar]

theorem slugChain_append (a b : List Char) :
    slugChain (a ++ b) = slugChain a ++ slugChain b := by
  simp [slugChain, replaceChar_append]

theorem slugChain_single (d : Char) : slugChain [d] = slugCharMap d := by
  by_cases h1 : d = ' '
  · subst h1; rfl
  · by_cases h2 : d = ':'
    · subst h2; rfl
    · by_cases h3 : d = apos
      · subst h3; rfl
      · by_cases h4 : d = '®'
        · subst h4; rfl
        · by_cases h5 : d = '™'
          · subst h5; rfl
          · by_cases h6 : d = '.'
            · subst h6; rfl
            · by_cases h7 : d = '&'
              · subst h7; rfl
              · simp [slugChain, slugCharMap, replaceChar, h1, h2, h3, h4, h5, h6, h7]

theorem create_slug_eq_slugSpec (t : List Char) : create_slug t = slugSpec t := by
  rw [create_slug_eq_chain]
  induction t with
  | nil => rfl
  | cons c cs ih =>
    have hsplit : (c :: cs).map Char.toLower =
        [Char.toLower c] ++ cs.map Char.toLower := by simp
    rw [hsplit, slugChain_append, slugChain_single]
    simp [slugSpec, ih, slugSpec] at ih ⊢

/-- Python posixpath `os.path.dirname`: everything up to the last `/`,
with trailing slashes stripped unless the head consists only of slashes. -/
def dirname (p : List Char) : List Char :=
  let head := (p.reverse.dropWhile (fun c => c ≠ '/')).reverse
  if head ≠ [] ∧ head.any (fun c => c ≠ '/') then
    (head.reverse.dropWhile (fun c => c = '/')).reverse
  else head

/-- Python truthiness of an optional string field (`if not x`): absent
(`None`) and the empty string are falsy. -/
def truthy : Option (List Char) → Bool
  | none => false
  | some s => !s.isEmpty

/-- The `install` sub-object of a manifest entry: `executable` and
`path`, each possibly absent. -/
structure InstallInfo where
  executable : Option (List Char)
  path : Option (List Char)
deriving DecidableEq, Repr

/-- One entry of the Heroic `library.json` manifest, with the fields the
script reads: `app_name`, `title`, `is_installed` (absent defaults to
false, per `game.get('is_installed', False)`), and the optional
`install` object (absent defaults to `{}`). -/
structure Game where
  app_name : Option (List Char)
  title : Option (List Char)
  is_installed : Bool
  install : Option InstallInfo
deriving DecidableEq, Repr

/-- The per-game JSON of Heroic `GamesConfig/<app_name>.json`, reduced to
the fields the script reads: `winePrefix`, `wineVersion.bin`,
`autoInstallDxvk`, `enableEsync`, `enableFsync` (booleans absent default
to false, per each `game_config.get(..., False)`). -/
structure HeroicGameJson where
  winePfx : Option (List Char)
  wineVersionBin : Option (List Char)
  autoInstallDxvk : Bool
  enableEsync : Bool
  enableFsync : Bool
deriving DecidableEq, Repr

/-- State of one per-game option file: missing, unreadable/unparsable
(raises on read or parse), or parsed to a JSON record. -/
inductive OptFile where
  | missing
  | malformed
  | parsed (j : HeroicGameJson)
deriving DecidableEq, Repr

/-- The dictionary returned by `get_heroic_game_config` when the file is
present and parses: keys `wine_prefix`, `wine_version`, `dxvk`, `esync`,
`fsync`. -/
structure HeroicConfig where
  winePfx : Option (List Char)
  wineVersion : Option (List Char)
  dxvk : Bool
  esync : Bool
  fsync : Bool
deriving DecidableEq, Repr

/-- `get_heroic_game_config` from `src/main.py` lines 51-68.  Returns
`none` for the empty dictionary `{}` (file missing, or read/parse
raised).  The second component records whether the warning for a
malformed file was printed. -/
def get_heroic_game_config : OptFile → Option HeroicConfig × Bool
  | .missing => (none, false)
  | .malformed => (none, true)
  | .parsed j =>
    (some ⟨j.winePfx, j.wineVersionBin, j.autoInstallDxvk, j.enableEsync, j.enableFsync⟩,
     false)

/-- The YAML document `lutris_game_config` written per game: `game.exe`,
`game.prefix`, and the `wine.dxvk/esync/fsync` flags. -/
structure LutrisGameConfig where
  exe : List Char
  pfx : Option (List Char)
  dxvk : Bool
  esync : Bool
  fsync : Bool
deriving DecidableEq, Repr

instance : Inhabited LutrisGameConfig := ⟨⟨[], none, false, false, false⟩⟩

/-- One row of the Lutris `games` table as inserted by the script:
`(name, slug, runner, executable, directory, installed, configpath)`. -/
structure Row where
  name : List Char
  slug : List Char
  runner : List Char
  executable : List Char
  directory : List Char
  installed : Nat
  configpath : List Char
deriving DecidableEq, Repr

/-- Outcome of the `cursor.execute(INSERT ...)` call for one game:
success, `sqlite3.Error` (caught at lines 167-171), or any other
exception (propagates to the top-level handler). -/
inductive DbOut where
  | ok
  | err
  | unexpected
deriving DecidableEq, Repr

/-- Environment of one run: the slugs already in the Lutris database
(queried once, line 96-97), the per-game option files keyed by
`app_name`, the outcome of the YAML write and of the database insert for
the i-th processed game, and the value of `int(time.time())` at the i-th
processed game. -/
structure Env where
  existing : List (List Char)
  fsCfg : Option (List Char) → OptFile
  yamlErr : Nat → Bool
  dbOut : Nat → DbOut
  now : Nat → Nat

/-- Mutable state of the loop: YAML config files on disk (stem and
content), rows inserted into the open transaction, counters, and the
number of malformed-option-file warnings printed. -/
structure St where
  files : List (List Char × LutrisGameConfig)
  pending : List Row
  added : Nat
  skipped : Nat
  warns : Nat
deriving DecidableEq, Repr

/-- The initial loop state: no files written, no pending rows,
`added_games = 0`, `skipped_games = 0`. -/
def St.init : St := ⟨[], [], 0, 0, 0⟩

/-- The body of the `for game in heroic_data.get('games', [])` loop
(`src/main.py` lines 101-171) for the game at index `i`.  Returns the
new state and whether an uncaught exception aborted the loop. -/
def stepGame (env : Env) (i : Nat) (g : Game) (st : St) : St × Bool :=
  if !g.is_installed then (st, false)
  else if !(truthy g.title) then ({st with skipped := st.skipped + 1}, false)
  else
    let game_title := g.title.getD []
    let game_slug := create_slug game_title
    let install_info := (g.install).getD ⟨none, none⟩
    let executable_path := install_info.executable
    if !(truthy executable_path) then ({st with skipped := st.skipped + 1}, false)
    else
      let exe := executable_path.getD []
      let install_dir :=
        if !(truthy install_info.path) then dirname exe else (install_info.path).getD []
      if game_slug ∈ env.existing then ({st with skipped := st.skipped + 1}, false)
      else
        let hc := get_heroic_game_config (env.fsCfg g.app_name)
        let winePfx := Option.bind hc.1 HeroicConfig.winePfx
        let lconf : LutrisGameConfig :=
          ⟨exe, winePfx,
           (hc.1.map HeroicConfig.dxvk).getD false,
           (hc.1.map HeroicConfig.esync).getD false,
           (hc.1.map HeroicConfig.fsync).getD false⟩
        let config_slug := game_slug ++ ('-' :: (toString (env.now i)).data)
        let st1 := if hc.2 then {st with warns := st.warns + 1} else st
        if env.yamlErr i then ({st1 with skipped := st1.skipped + 1}, false)
        else
          let st2 := {st1 with files := st1.files ++ [(config_slug, lconf)]}
          match env.dbOut i with
          | .ok =>
            ({st2 with
                pending := st2.pending ++
                  [⟨game_title, game_slug, "wine".data, exe, install_dir, 1, config_slug⟩],
                added := st2.added + 1}, false)
          | .err =>
            ({st2 with
                files := st2.files.filter (fun f => f.1 ≠ config_slug),
                skipped := st2.skipped + 1}, false)
          | .unexpected => (st2, true)

/-- The loop itself: process the games in order, stopping early when an
uncaught exception propagates. -/
def runLoop (env : Env) : List Game → Nat → St → St × Bool
  | [], _, st => (st, false)
  | g :: gs, i, st =>
    let r := stepGame env i g st
    if r.2 then (r.1, true) else runLoop env gs (i + 1) r.1

/-- Result of one run of `add_heroic_games_to_lutris` after the path
preconditions hold: the files on disk, the rows that were pending in the
transaction, whether `conn.commit()` (line 173) was reached, and whether
the top-level handler printed a stack trace (lines 178-182). -/
structure RunResult where
  files : List (List Char × LutrisGameConfig)
  pending : List Row
  committed : Bool
  traceback : Bool
  added : Nat
  skipped : Nat
  warns : Nat
deriving DecidableEq, Repr

/-- `add_heroic_games_to_lutris` (lines 92-186), from the point where the
database is open and `existing_slugs` is loaded: run the loop; if it
finishes, `conn.commit()` runs; if an unexpected exception escaped the
loop, control jumps to the `except` block (stack trace printed) and the
connection is closed without commit. -/
def add_heroic_games_to_lutris (env : Env) (games : List Game) : RunResult :=
  let r := runLoop env games 0 St.init
  ⟨r.1.files, r.1.pending, !r.2, r.2, r.1.added, r.1.skipped, r.1.warns⟩

/-- The committed content of the `games` table after the run: rows
pending in the transaction are kept only if `conn.commit()` ran;
otherwise closing the connection rolls them back. -/
def finalSlugs (env : Env) (r : RunResult) : List (List Char) :=
  env.existing ++ (if r.committed then r.pending.map Row.slug else [])

/-- `main` (lines 189-202): the confirmation prompt.  `none` means the
run was cancelled before the database is opened and before any mutation;
otherwise the import proceeds. -/
def mainEntry (response : List Char) (env : Env) (games : List Game) : Option RunResult :=
  if response.map Char.toLower ≠ ['y'] then none
  else some (add_heroic_games_to_lutris env games)

/-- The title used by the end-to-end example in the spec:
`Foo: Bar's Quest™` (the apostrophe spelled via `apos`). -/
def fooTitle : List Char := "Foo: Bar".data ++ [apos] ++ "s Quest™".data

/-- Claim C1: `create_slug` lowercases the title, replaces spaces with
hyphens, strips the fixed punctuation set and turns `&` into `and`; on
the title `Foo: Bar's Quest™` the derived slug is `foo-bars-quest`. -/
theorem create_slug_foo_bars_quest :
    (∀ t, create_slug t = slugSpec t) ∧
      create_slug fooTitle = "foo-bars-quest".data :=
  ⟨create_slug_eq_slugSpec, by decide⟩

/-- Claim C10: the stripped set of `create_slug` is exactly `:`, the
apostrophe, `®`, `™`, `.`: the whole function equals the character-wise
pass `slugSpec`, whose map keeps every character other than a space,
those five, and `&` unchanged; in particular `/`, `!`, `?` survive into
the slug, so the output need not be identifier-safe. -/
theorem create_slug_strips_exactly :
    (∀ t, create_slug t = slugSpec t) ∧
      (∀ c, c ≠ ' ' → c ≠ ':' → c ≠ apos → c ≠ '®' → c ≠ '™' → c ≠ '.' → c ≠ '&' →
        slugCharMap c = [c]) ∧
      create_slug "A/B !?".data = "a/b-!?".data := by
  refine ⟨create_slug_eq_slugSpec, ?_, by decide⟩
  intro c h1 h2 h3 h4 h5 h6 h7
  simp [slugCharMap, h1, h2, h3, h4, h5, h6, h7]

/-- Witness for C10: `?` is kept by the character map, and the concrete
slug of `A/B !?` keeps `/`, `!`, `?`. -/
theorem create_slug_strips_exactly_witness :
    slugCharMap '?' = ['?'] ∧ create_slug "A/B !?".data = "a/b-!?".data :=
  ⟨create_slug_strips_exactly.2.1 '?' (by decide) (by decide) (by decide) (by decide)
      (by decide) (by decide) (by decide),
   create_slug_strips_exactly.2.2⟩

/-- Claim C5: an entry whose `is_installed` flag is false (or absent,
which `game.get('is_installed', False)` reads as false) is passed over
entirely: the loop state is unchanged, so no config file and no row is
produced for it. -/
theorem step_not_installed (env : Env) (i : Nat) (g : Game) (st : St)
    (h : g.is_installed = false) : stepGame env i g st = (st, false) := by
  simp [stepGame, h]

/-- Claim C7: any response whose lowercase form is not `y` cancels the
run before the database is opened and before any mutation. -/
theorem main_nonaffirmative_aborts (response : List Char) (env : Env) (games : List Game)
    (h : response.map Char.toLower ≠ ['y']) :
    mainEntry response env games = none := by
  simp [mainEntry, h]

/-- A benign environment for concrete runs: empty catalog, no option
files, all writes succeed, clock fixed at 5. -/
def envW : Env := ⟨[], fun _ => OptFile.missing, fun _ => false, fun _ => DbOut.ok, fun _ => 5⟩

/-- Witness for C5 at a concrete not-installed entry. -/
theorem step_not_installed_witness :
    stepGame envW 0 ⟨none, some ("t".data), false, none⟩ St.init = (St.init, false) :=
  step_not_installed envW 0 ⟨none, some ("t".data), false, none⟩ St.init rfl

/-- Witness for C7 at the concrete response `n`. -/
theorem main_nonaffirmative_aborts_witness :
    mainEntry ("n".data) envW [] = none :=
  main_nonaffirmative_aborts ("n".data) envW [] (by decide)

/-- Claim C4: an entry whose derived slug is already among the catalog's
existing slugs leaves the files on disk and the pending rows untouched
(no config file, no insert, no overwrite) and the loop continues. -/
theorem step_slug_collision (env : Env) (i : Nat) (g : Game) (st : St)
    (h : create_slug (g.title.getD []) ∈ env.existing) :
    (stepGame env i g st).1.files = st.files ∧
    (stepGame env i g st).1.pending = st.pending ∧
    (stepGame env i g st).2 = false := by
  unfold stepGame
  by_cases h1 : g.is_installed = true
  · by_cases h2 : truthy g.title = true
    · by_cases h3 : truthy ((g.install).getD ⟨none, none⟩).executable = true
      · simp [h1, h2, h3, h]
      · simp [h1, h2, h3]
    · simp [h1, h2]
  · simp [h1]

/-- A well-formed installed entry used by concrete runs. -/
def gOK : Game := ⟨some ("app".data), some ("T".data), true, some ⟨some ("/a/b.exe".data), none⟩⟩

/-- Environment whose catalog already contains the slug `t`. -/
def envDup : Env :=
  ⟨["t".data], fun _ => OptFile.missing, fun _ => false, fun _ => DbOut.ok, fun _ => 5⟩

/-- Witness for C4: with `t` already in the catalog, the entry titled `T`
changes neither the files nor the pending rows. -/
theorem step_slug_collision_witness :
    (stepGame envDup 0 gOK St.init).1.files = St.init.files ∧
    (stepGame envDup 0 gOK St.init).1.pending = St.init.pending ∧
    (stepGame envDup 0 gOK St.init).2 = false :=
  step_slug_collision envDup 0 gOK St.init (by decide)

/-- Claim C2: when the database insert raises `sqlite3.Error` after the
YAML config file was written, the file is deleted (its name is no longer
on disk), no row is pending, the entry counts as skipped, and the loop
continues. -/
theorem step_db_error_cleanup (env : Env) (i : Nat) (g : Game) (st : St)
    (h1 : g.is_installed = true)
    (h2 : truthy g.title = true)
    (h3 : truthy ((g.install).getD ⟨none, none⟩).executable = true)
    (h4 : create_slug (g.title.getD []) ∉ env.existing)
    (h5 : env.yamlErr i = false)
    (h6 : env.dbOut i = DbOut.err) :
    (create_slug (g.title.getD []) ++ ('-' :: (toString (env.now i)).data)) ∉
      ((stepGame env i g st).1.files.map Prod.fst) ∧
    (stepGame env i g st).1.pending = st.pending ∧
    (stepGame env i g st).1.skipped = st.skipped + 1 ∧
    (stepGame env i g st).2 = false := by
  by_cases hw : (get_heroic_game_config (env.fsCfg g.app_name)).2 = true
  · simp only [stepGame, h1, h2, h3, h5, h6, hw]
    simp [h4, List.mem_filter]
  · simp only [stepGame, h1, h2, h3, h5, h6, hw]
    simp [h4, List.mem_filter]

/-- Environment in which every database insert raises `sqlite3.Error`. -/
def envDbErr : Env :=
  ⟨[], fun _ => OptFile.missing, fun _ => false, fun _ => DbOut.err, fun _ => 5⟩

/-- Witness for C2 at a concrete entry whose insert fails. -/
theorem step_db_error_cleanup_witness :
    (create_slug ((gOK.title).getD []) ++ ('-' :: (toString (envDbErr.now 0)).data)) ∉
      ((stepGame envDbErr 0 gOK St.init).1.files.map Prod.fst) ∧
    (stepGame envDbErr 0 gOK St.init).1.pending = St.init.pending ∧
    (stepGame envDbErr 0 gOK St.init).1.skipped = St.init.skipped + 1 ∧
    (stepGame envDbErr 0 gOK St.init).2 = false :=
  step_db_error_cleanup envDbErr 0 gOK St.init rfl (by decide) (by decide) (by decide) rfl rfl

/-- Claim C6: when the entry has an executable but no truthy `install.path`,
the row appended to the pending inserts carries as `directory` the parent
directory of the executable (lines 123-124); and on `/games/Foo/foo.exe`
that parent is `/games/Foo`. -/
theorem step_dir_fallback (env : Env) (i : Nat) (g : Game) (st : St)
    (h1 : g.is_installed = true)
    (h2 : truthy g.title = true)
    (h3 : truthy ((g.install).getD ⟨none, none⟩).executable = true)
    (hp : truthy ((g.install).getD ⟨none, none⟩).path = false)
    (h4 : create_slug (g.title.getD []) ∉ env.existing)
    (h5 : env.yamlErr i = false)
    (h6 : env.dbOut i = DbOut.ok) :
    (stepGame env i g st).1.pending.map Row.directory =
      st.pending.map Row.directory ++
        [dirname ((((g.install).getD ⟨none, none⟩).executable).getD [])] ∧
    dirname ("/games/Foo/foo.exe".data) = "/games/Foo".data := by
  refine ⟨?_, by decide⟩
  by_cases hw : (get_heroic_game_config (env.fsCfg g.app_name)).2 = true
  · simp only [stepGame, h1, h2, h3, h5, h6, hw, hp]
    simp [h4]
  · simp only [stepGame, h1, h2, h3, h5, h6, hw, hp]
    simp [h4]

/-- Witness for C6: the entry `gOK` has executable `/a/b.exe` and no
install path, and its pending row's directory is `dirname "/a/b.exe"`. -/
theorem step_dir_fallback_witness :
    (stepGame envW 0 gOK St.init).1.pending.map Row.directory =
      St.init.pending.map Row.directory ++
        [dirname ((((gOK.install).getD ⟨none, none⟩).executable).getD [])] ∧
    dirname ("/games/Foo/foo.exe".data) = "/games/Foo".data :=
  step_dir_fallback envW 0 gOK St.init rfl (by decide) (by decide) (by decide) (by decide)
    rfl rfl

/-- Claim C8: when the per-game option file is malformed, the warning is
printed, the written config record has a null Wine prefix and false
DXVK/Esync/Fsync flags, and the game is still migrated (row pending,
`added_games` incremented). -/
theorem step_malformed_options (env : Env) (i : Nat) (g : Game) (st : St)
    (h1 : g.is_installed = true)
    (h2 : truthy g.title = true)
    (h3 : truthy ((g.install).getD ⟨none, none⟩).executable = true)
    (h4 : create_slug (g.title.getD []) ∉ env.existing)
    (hm : env.fsCfg g.app_name = OptFile.malformed)
    (h5 : env.yamlErr i = false)
    (h6 : env.dbOut i = DbOut.ok) :
    (stepGame env i g st).1.warns = st.warns + 1 ∧
    (stepGame env i g st).1.files =
      st.files ++
        [(create_slug (g.title.getD []) ++ ('-' :: (toString (env.now i)).data),
          ⟨(((g.install).getD ⟨none, none⟩).executable).getD [], none, false, false, false⟩)] ∧
    (stepGame env i g st).1.added = st.added + 1 ∧
    (stepGame env i g st).1.pending.map Row.slug =
      st.pending.map Row.slug ++ [create_slug (g.title.getD [])] := by
  simp only [stepGame, h1, h2, h3, h5, h6, hm]
  simp [get_heroic_game_config, h4]

/-- Environment in which every per-game option file is malformed. -/
def envMal : Env :=
  ⟨[], fun _ => OptFile.malformed, fun _ => false, fun _ => DbOut.ok, fun _ => 5⟩

/-- Witness for C8 at a concrete entry with a malformed option file. -/
theorem step_malformed_options_witness :
    (stepGame envMal 0 gOK St.init).1.warns = St.init.warns + 1 ∧
    (stepGame envMal 0 gOK St.init).1.files =
      St.init.files ++
        [(create_slug ((gOK.title).getD []) ++ ('-' :: (toString (envMal.now 0)).data),
          ⟨(((gOK.install).getD ⟨none, none⟩).executable).getD [], none, false, false, false⟩)] ∧
    (stepGame envMal 0 gOK St.init).1.added = St.init.added + 1 ∧
    (stepGame envMal 0 gOK St.init).1.pending.map Row.slug =
      St.init.pending.map Row.slug ++ [create_slug ((gOK.title).getD [])] :=
  step_malformed_options envMal 0 gOK St.init rfl (by decide) (by decide) (by decide)
    rfl rfl rfl

/-- The `config_slug` written for a game: slug, hyphen, timestamp. -/
def slugStamp (env : Env) (i : Nat) (g : Game) : List Char :=
  create_slug (g.title.getD []) ++ ('-' :: (toString (env.now i)).data)

/-- The YAML document written for a game in environment `env`. -/
def lconfOf (env : Env) (g : Game) : LutrisGameConfig :=
  let hc := get_heroic_game_config (env.fsCfg g.app_name)
  ⟨(((g.install).getD ⟨none, none⟩).executable).getD [],
   Option.bind hc.1 HeroicConfig.winePfx,
   (hc.1.map HeroicConfig.dxvk).getD false,
   (hc.1.map HeroicConfig.esync).getD false,
   (hc.1.map HeroicConfig.fsync).getD false⟩

/-- The row inserted for a game in environment `env` at index `i`. -/
def rowOf (env : Env) (i : Nat) (g : Game) : Row :=
  let info := (g.install).getD ⟨none, none⟩
  let exe := (info.executable).getD []
  ⟨g.title.getD [], create_slug (g.title.getD []), "wine".data, exe,
   if !(truthy info.path) then dirname exe else (info.path).getD [],
   1, slugStamp env i g⟩

/-- On the fully successful path, `stepGame` appends exactly one file and
one pending row and increments `added_games`. -/
theorem stepGame_insert (env : Env) (i : Nat) (g : Game) (st : St)
    (h1 : g.is_installed = true)
    (h2 : truthy g.title = true)
    (h3 : truthy ((g.install).getD ⟨none, none⟩).executable = true)
    (h4 : create_slug (g.title.getD []) ∉ env.existing)
    (h5 : env.yamlErr i = false)
    (h6 : env.dbOut i = DbOut.ok) :
    stepGame env i g st =
      (⟨st.files ++ [(slugStamp env i g, lconfOf env g)],
        st.pending ++ [rowOf env i g],
        st.added + 1, st.skipped,
        st.warns +
          (if (get_heroic_game_config (env.fsCfg g.app_name)).2 then 1 else 0)⟩,
       false) := by
  by_cases hw : (get_heroic_game_config (env.fsCfg g.app_name)).2 = true
  · simp only [stepGame, h1, h2, h3, h5, h6, hw]
    simp [h4, slugStamp, lconfOf, rowOf, hw]
  · simp only [stepGame, h1, h2, h3, h5, h6, hw]
    simp [h4, slugStamp, lconfOf, rowOf, hw]

/-- Claim C9 (amended statement is the claim itself, which holds): the
existing-slug set is read once and never extended during the run, so two
installed entries of one manifest that derive the same fresh slug are
both migrated, and the committed table ends with two rows of that slug. -/
theorem run_same_slug_twice (env : Env) (g1 g2 : Game)
    (h1 : g1.is_installed = true)
    (h2 : truthy g1.title = true)
    (h3 : truthy ((g1.install).getD ⟨none, none⟩).executable = true)
    (k1 : g2.is_installed = true)
    (k2 : truthy g2.title = true)
    (k3 : truthy ((g2.install).getD ⟨none, none⟩).executable = true)
    (hs : create_slug (g2.title.getD []) = create_slug (g1.title.getD []))
    (h4 : create_slug (g1.title.getD []) ∉ env.existing)
    (y0 : env.yamlErr 0 = false) (y1 : env.yamlErr 1 = false)
    (d0 : env.dbOut 0 = DbOut.ok) (d1 : env.dbOut 1 = DbOut.ok) :
    (add_heroic_games_to_lutris env [g1, g2]).added = 2 ∧
    finalSlugs env (add_heroic_games_to_lutris env [g1, g2]) =
      env.existing ++
        [create_slug (g1.title.getD []), create_slug (g1.title.getD [])] := by
  have e1 := stepGame_insert env 0 g1 St.init h1 h2 h3 h4 y0 d0
  have e2 := stepGame_insert env 1 g2
      ⟨St.init.files ++ [(slugStamp env 0 g1, lconfOf env g1)],
       St.init.pending ++ [rowOf env 0 g1],
       St.init.added + 1, St.init.skipped,
       St.init.warns +
         (if (get_heroic_game_config (env.fsCfg g1.app_name)).2 then 1 else 0)⟩
      k1 k2 k3 (by rw [hs]; exact h4) y1 d1
  simp only [add_heroic_games_to_lutris, runLoop, e1]
  simp only [e2]
  simp [finalSlugs, rowOf, St.init, hs]

/-- Two concrete entries with the same title `T` and distinct app names. -/
def gDupA : Game := ⟨some ("a1".data), some ("T".data), true, some ⟨some ("/a/x".data), none⟩⟩

/-- Second concrete entry titled `T`. -/
def gDupB : Game := ⟨some ("a2".data), some ("T".data), true, some ⟨some ("/b/y".data), none⟩⟩

/-- Witness for C9: both `T`-titled entries land in the committed table,
which ends with the slug `t` twice. -/
theorem run_same_slug_twice_witness :
    (add_heroic_games_to_lutris envW [gDupA, gDupB]).added = 2 ∧
    finalSlugs envW (add_heroic_games_to_lutris envW [gDupA, gDupB]) =
      envW.existing ++
        [create_slug ((gDupA.title).getD []), create_slug ((gDupA.title).getD [])] :=
  run_same_slug_twice envW gDupA gDupB rfl (by decide) (by decide) rfl (by decide)
    (by decide) (by decide) (by decide) rfl rfl rfl rfl

/-- Environment whose second database insert raises an exception that is
not a `sqlite3.Error`, so it escapes the per-insert handler. -/
def envUnexp : Env :=
  ⟨[], fun _ => OptFile.missing, fun _ => false,
   fun i => if i = 0 then DbOut.ok else DbOut.unexpected, fun _ => 5⟩

/-- Second concrete entry, titled `B`, for the unexpected-exception run. -/
def gB : Game := ⟨some ("app2".data), some ("B".data), true, some ⟨some ("/c/d.exe".data), none⟩⟩

/-- Counterexample to claim C3 as stated: in a run where the second
insert raises an unexpected exception, the top-level handler prints the
stack trace and one row of partial progress is pending, yet
`conn.commit()` (inside the `try`, line 173) is never reached, so the
partial progress is not committed. -/
theorem run_unexpected_commit_counterexample :
    (add_heroic_games_to_lutris envUnexp [gOK, gB]).traceback = true ∧
    (add_heroic_games_to_lutris envUnexp [gOK, gB]).pending.length = 1 ∧
    (add_heroic_games_to_lutris envUnexp [gOK, gB]).committed = false := by decide

/-- Claim C3, amended: an unexpected exception escaping the loop is
caught at the top level (stack trace printed), but the commit is skipped
and the rows pending from this run are rolled back when the connection
closes, leaving the table as it was before the run. -/
theorem run_unexpected_not_committed (env : Env) (games : List Game)
    (h : (add_heroic_games_to_lutris env games).traceback = true) :
    (add_heroic_games_to_lutris env games).committed = false ∧
    finalSlugs env (add_heroic_games_to_lutris env games) = env.existing := by
  simp only [add_heroic_games_to_lutris, finalSlugs] at h ⊢
  simp [h]

/-- Witness for the amended C3 at the concrete aborting run. -/
theorem run_unexpected_not_committed_witness :
    (add_heroic_games_to_lutris envUnexp [gOK, gB]).committed = false ∧
    finalSlugs envUnexp (add_heroic_games_to_lutris envUnexp [gOK, gB]) =
      envUnexp.existing :=
  run_unexpected_not_committed envUnexp [gOK, gB] (by decide)
